import Mathlib

/-!
Verification of the RWA commodities-tokenization repository against its
natural-language specification.

The development shallowly embeds the parts of the source the claims touch:

* `contracts/RWAToken.sol` (role-gated mint, whitelist management, pause,
  constructor) as a pure transition function on `TokenState`, with
  `Except LedgerError` for reverts.  Solidity `uint256` amounts are embedded
  as `Nat` (arbitrary-precision, as the spec's data model prescribes);
  OpenZeppelin internals (`_grantRole`, `_mint`, `Pausable`) are embedded at
  their documented interface behaviour.
* the polling event-sync service (`backend/src/services`, the
  `BLOCKS_PER_QUERY`/`pollEvents`/`queryEvents` variant) as a deterministic
  state-transition on `SyncState`, with the MongoDB `Transaction` and `User`
  collections embedded as in-memory lists.  The schema's `unique: true`
  index on `txHash` is embedded as a failing insert.  JavaScript
  `try`/`catch` blocks that swallow errors are embedded by returning the
  unchanged state on the error branch.  Fields irrelevant to every claim
  (block timestamps, the floating-point `amountFormatted`, `rawData`,
  `processed`, Mongo bookkeeping timestamps) are omitted.
* `backend/src/config/blockchain.js`'s `verifySignature`, with the external
  `ethers.verifyMessage` recovery primitive taken as a parameter that
  returns `none` when it would throw.
-/

/-! ## RWAToken contract (contracts/RWAToken.sol) -/

/-- Role identifiers.  The contract uses `keccak256` hashes; only their
distinctness matters, so they are embedded as tag strings. -/
def DEFAULT_ADMIN_ROLE : String := "DEFAULT_ADMIN_ROLE"

def ADMIN_ROLE : String := "ADMIN_ROLE"

def ISSUER_ROLE : String := "ISSUER_ROLE"

/-- The zero address (`address(0)`). -/
def zeroAddress : String := "0x0000000000000000000000000000000000000000"

/-- `AssetMetadata` struct of the contract. -/
structure AssetMetadata where
  commodityType : String
  unit : String
  totalQuantity : Nat
  storageLocation : String
  certificationHash : String
  createdAt : Nat
  updatedAt : Nat
deriving DecidableEq

/-- Events the contract emits (the ones the embedded operations produce). -/
inductive ContractEvent where
  | RoleGrantedE (role account sender : String)
  | WhitelistUpdatedE (account : String) (status : Bool)
  | AssetMetadataUpdatedE (commodityType unit : String) (totalQuantity : Nat)
      (storageLocation certificationHash : String)
  | TransferE (srcAddr destAddr : String) (value : Nat)
  | TokensMintedE (destAddr : String) (amount : Nat) (reason : String)
  | PausedE (account : String)
  | UnpausedE (account : String)
deriving DecidableEq

/-- Contract storage plus the emitted event log. -/
structure TokenState where
  tokenName : String
  tokenSymbol : String
  balances : List (String × Nat)
  totalSupply : Nat
  whitelist : List String
  roles : List (String × String)
  paused : Bool
  assetMetadata : AssetMetadata
  eventLog : List ContractEvent
deriving DecidableEq

/-- `hasRole(role, account)` of OpenZeppelin AccessControl. -/
def hasRole (st : TokenState) (role account : String) : Bool :=
  st.roles.contains (role, account)

/-- Balance lookup in the `balances` mapping (absent key reads as 0). -/
def balanceOf (st : TokenState) (account : String) : Nat :=
  match st.balances.find? (fun p => p.fst == account) with
  | some p => p.snd
  | none => 0

/-- Write to the `balances` mapping. -/
def putBalance (bs : List (String × Nat)) (account : String) (v : Nat) :
    List (String × Nat) :=
  if bs.any (fun p => p.fst == account) then
    bs.map (fun p => if p.fst == account then (p.fst, v) else p)
  else
    bs ++ [(account, v)]

/-- Revert outcomes of the embedded contract operations.  `Unauthorized`
is the AccessControl `AccessControlUnauthorizedAccount` revert,
`EnforcedPause` the OpenZeppelin Pausable revert; the rest are the
`require` messages of RWAToken. -/
inductive LedgerError where
  | Unauthorized
  | EnforcedPause
  | ExpectedPause
  | NotWhitelistedRecipient
  | InvalidAmount
  | ZeroAddress
  | AlreadyWhitelisted
  | NotWhitelistedTarget
deriving DecidableEq

deriving instance DecidableEq for Except

/-- The constructor of RWAToken: grants `DEFAULT_ADMIN_ROLE`, `ADMIN_ROLE`
and `ISSUER_ROLE` to the deployer (each `_grantRole` emitting
`RoleGranted`), whitelists the deployer emitting `WhitelistUpdated`, stores
the initial asset metadata and emits `AssetMetadataUpdated`. -/
def RWAToken.deploy (deployer name symbol commodityType unit : String)
    (totalQuantity : Nat) (storageLocation certificationHash : String)
    (timestamp : Nat) : TokenState :=
  { tokenName := name
    tokenSymbol := symbol
    balances := []
    totalSupply := 0
    whitelist := [deployer]
    roles := [(DEFAULT_ADMIN_ROLE, deployer), (ADMIN_ROLE, deployer),
              (ISSUER_ROLE, deployer)]
    paused := false
    assetMetadata :=
      { commodityType := commodityType
        unit := unit
        totalQuantity := totalQuantity
        storageLocation := storageLocation
        certificationHash := certificationHash
        createdAt := timestamp
        updatedAt := timestamp }
    eventLog :=
      [ .RoleGrantedE DEFAULT_ADMIN_ROLE deployer deployer,
        .RoleGrantedE ADMIN_ROLE deployer deployer,
        .RoleGrantedE ISSUER_ROLE deployer deployer,
        .WhitelistUpdatedE deployer true,
        .AssetMetadataUpdatedE commodityType unit totalQuantity
          storageLocation certificationHash ] }

/-- `mint(to, amount, reason)`.  Modifier order of the source is
`onlyRole(ISSUER_ROLE)` then `whenNotPaused`, then the body requires
`whitelist[to]` and `amount > 0`; on success `_mint` updates supply and
balance and emits `Transfer(0, to, amount)`, after which the body emits
`TokensMinted`. -/
def RWAToken.mint (st : TokenState) (caller toAcct : String) (amount : Nat)
    (reason : String) : Except LedgerError TokenState :=
  if !(hasRole st ISSUER_ROLE caller) then .error .Unauthorized
  else if st.paused then .error .EnforcedPause
  else if !(st.whitelist.contains toAcct) then .error .NotWhitelistedRecipient
  else if amount == 0 then .error .InvalidAmount
  else .ok { st with
    totalSupply := st.totalSupply + amount
    balances := putBalance st.balances toAcct (balanceOf st toAcct + amount)
    eventLog := st.eventLog ++
      [.TransferE zeroAddress toAcct amount, .TokensMintedE toAcct amount reason] }

/-- `addToWhitelist(account)`: admin-gated; requires a nonzero address and
that the account is not already whitelisted. -/
def RWAToken.addToWhitelist (st : TokenState) (caller account : String) :
    Except LedgerError TokenState :=
  if !(hasRole st ADMIN_ROLE caller) then .error .Unauthorized
  else if account == zeroAddress then .error .ZeroAddress
  else if st.whitelist.contains account then .error .AlreadyWhitelisted
  else .ok { st with
    whitelist := st.whitelist ++ [account]
    eventLog := st.eventLog ++ [.WhitelistUpdatedE account true] }

/-- `removeFromWhitelist(account)`: admin-gated; requires the account to be
currently whitelisted. -/
def RWAToken.removeFromWhitelist (st : TokenState) (caller account : String) :
    Except LedgerError TokenState :=
  if !(hasRole st ADMIN_ROLE caller) then .error .Unauthorized
  else if !(st.whitelist.contains account) then .error .NotWhitelistedTarget
  else .ok { st with
    whitelist := st.whitelist.filter (fun a => a != account)
    eventLog := st.eventLog ++ [.WhitelistUpdatedE account false] }

/-- One step of the `batchAddToWhitelist` loop body: skip the entry when it
is the zero address or already whitelisted, otherwise set the flag and emit. -/
def batchStep (st : TokenState) (account : String) : TokenState :=
  if account != zeroAddress && !(st.whitelist.contains account) then
    { st with
      whitelist := st.whitelist ++ [account]
      eventLog := st.eventLog ++ [.WhitelistUpdatedE account true] }
  else st

/-- `batchAddToWhitelist(accounts)`: admin-gated; iterates `batchStep` and
never reverts on duplicate or zero-address entries. -/
def RWAToken.batchAddToWhitelist (st : TokenState) (caller : String)
    (accounts : List String) : Except LedgerError TokenState :=
  if !(hasRole st ADMIN_ROLE caller) then .error .Unauthorized
  else .ok (accounts.foldl batchStep st)

/-- `pause()`: admin-gated; OpenZeppelin `_pause` reverts with
`EnforcedPause` when already paused. -/
def RWAToken.pause (st : TokenState) (caller : String) :
    Except LedgerError TokenState :=
  if !(hasRole st ADMIN_ROLE caller) then .error .Unauthorized
  else if st.paused then .error .EnforcedPause
  else .ok { st with paused := true, eventLog := st.eventLog ++ [.PausedE caller] }

/-! ## Event sync service (polling variant) and MongoDB models -/

/-- Payload of a chain event as delivered by the per-kind `queryFilter`
calls of `queryEvents`.  One case per event kind the polling service
handles. -/
inductive EvPayload where
  | transferP (srcAddr destAddr : String) (value : Nat)
  | mintP (destAddr : String) (amount : Nat) (reason : String)
  | burnP (srcAddr : String) (amount : Nat) (reason : String)
  | whitelistP (account : String) (status : Bool)
  | pausedP (account : String)
  | unpausedP (account : String)
deriving DecidableEq

/-- The contract event name a payload belongs to, as used by the
`contract.filters.X()` queries. -/
def EvPayload.kindName : EvPayload → String
  | .transferP .. => "Transfer"
  | .mintP .. => "TokensMinted"
  | .burnP .. => "TokensBurned"
  | .whitelistP .. => "WhitelistUpdated"
  | .pausedP .. => "Paused"
  | .unpausedP .. => "Unpaused"

/-- A log entry returned by `queryFilter`: transaction hash, block number
and decoded arguments. -/
structure ChainEvent where
  txHash : String
  blockNumber : Nat
  payload : EvPayload
deriving DecidableEq

/-- A document of the `Transaction` collection
(backend/src/models/Transaction.js).  Optional schema fields are `Option`;
the schema lowercases `from`, `to` and `account`, which the service also
does explicitly.  `blockTimestamp`, `amountFormatted` (floating point),
`rawData` (schemaless) and `processed` are omitted as irrelevant to the
claims. -/
structure TxRecord where
  txHash : String
  blockNumber : Nat
  eventType : String
  fromAddr : Option String
  toAddr : Option String
  amount : Option String
  reason : Option String
  account : Option String
  whitelistStatus : Option Bool
deriving DecidableEq

/-- A document of the `User` collection (backend/src/models/User.js),
restricted to the fields the sync service touches.  The schema has no
balance field and no total-supply counter anywhere. -/
structure UserRec where
  walletAddress : String
  isWhitelisted : Bool
deriving DecidableEq

/-- The MongoDB state the sync service writes to. -/
structure Db where
  transactions : List TxRecord
  users : List UserRec
deriving DecidableEq

/-- `Transaction.findOne({ txHash, eventType })`. -/
def findOneTx (db : Db) (h et : String) : Option TxRecord :=
  db.transactions.find? (fun r => r.txHash == h && r.eventType == et)

/-- `Transaction.create(...)`.  The schema declares `txHash` with
`unique: true`, so the insert fails with a duplicate-key error whenever any
existing document carries the same transaction hash. -/
def createTx (db : Db) (r : TxRecord) : Except String Db :=
  if db.transactions.any (fun q => q.txHash == r.txHash) then
    .error "E11000 duplicate key"
  else
    .ok { db with transactions := db.transactions ++ [r] }

/-- `User.findOneAndUpdate({ walletAddress }, { isWhitelisted })`: updates
the first matching document, if any. -/
def updateUserWhitelist (db : Db) (addr : String) (status : Bool) : Db :=
  { db with users :=
      match db.users.findIdx? (fun u => u.walletAddress == addr) with
      | some i => db.users.set i { walletAddress := addr, isWhitelisted := status }
      | none => db.users }

/-- JavaScript `toLowerCase()` on an (ASCII) address string, embedded as a
character-wise lowering. -/
def lowercase (s : String) : String :=
  String.mk (s.data.map Char.toLower)

/-- `processTransferEvent`: dedup check on `(txHash, "Transfer")`, then
insert a history record with lowercased addresses and the stringified
amount.  The whole body is wrapped in `try`/`catch` that only logs, so a
failing insert leaves the store unchanged and signals nothing. -/
def processTransferEvent (db : Db) (e : ChainEvent) : Db :=
  match e.payload with
  | .transferP srcAddr destAddr value =>
    match findOneTx db e.txHash "Transfer" with
    | some _ => db
    | none =>
      match createTx db
        { txHash := e.txHash, blockNumber := e.blockNumber
          eventType := "Transfer"
          fromAddr := some (lowercase srcAddr), toAddr := some (lowercase destAddr)
          amount := some (toString value), reason := none
          account := none, whitelistStatus := none } with
      | .ok db2 => db2
      | .error _ => db
  | _ => db

/-- `processMintEvent`: dedup check on `(txHash, "Mint")`, then insert;
errors are caught and logged. -/
def processMintEvent (db : Db) (e : ChainEvent) : Db :=
  match e.payload with
  | .mintP destAddr amount reason =>
    match findOneTx db e.txHash "Mint" with
    | some _ => db
    | none =>
      match createTx db
        { txHash := e.txHash, blockNumber := e.blockNumber
          eventType := "Mint"
          fromAddr := none, toAddr := some (lowercase destAddr)
          amount := some (toString amount), reason := some reason
          account := none, whitelistStatus := none } with
      | .ok db2 => db2
      | .error _ => db
  | _ => db

/-- `processBurnEvent`: dedup check on `(txHash, "Burn")`, then insert;
errors are caught and logged. -/
def processBurnEvent (db : Db) (e : ChainEvent) : Db :=
  match e.payload with
  | .burnP srcAddr amount reason =>
    match findOneTx db e.txHash "Burn" with
    | some _ => db
    | none =>
      match createTx db
        { txHash := e.txHash, blockNumber := e.blockNumber
          eventType := "Burn"
          fromAddr := some (lowercase srcAddr), toAddr := none
          amount := some (toString amount), reason := some reason
          account := none, whitelistStatus := none } with
      | .ok db2 => db2
      | .error _ => db
  | _ => db

/-- `processWhitelistEvent`: dedup check on `(txHash, "WhitelistUpdated")`,
insert the history record, then update the matching user's
`isWhitelisted` flag; errors are caught and logged. -/
def processWhitelistEvent (db : Db) (e : ChainEvent) : Db :=
  match e.payload with
  | .whitelistP account status =>
    match findOneTx db e.txHash "WhitelistUpdated" with
    | some _ => db
    | none =>
      match createTx db
        { txHash := e.txHash, blockNumber := e.blockNumber
          eventType := "WhitelistUpdated"
          fromAddr := none, toAddr := none
          amount := none, reason := none
          account := some (lowercase account), whitelistStatus := some status } with
      | .ok db2 => updateUserWhitelist db2 (lowercase account) status
      | .error _ => db
  | _ => db

/-- `processPauseEvent(event, paused)`: dedup check on `(txHash, "Paused")`
or `(txHash, "Unpaused")`, then insert; errors are caught and logged. -/
def processPauseEvent (db : Db) (e : ChainEvent) (paused : Bool) : Db :=
  let et := if paused then "Paused" else "Unpaused"
  let acct : Option String :=
    match e.payload with
    | .pausedP a => some (lowercase a)
    | .unpausedP a => some (lowercase a)
    | _ => none
  match findOneTx db e.txHash et with
  | some _ => db
  | none =>
    match createTx db
      { txHash := e.txHash, blockNumber := e.blockNumber
        eventType := et
        fromAddr := none, toAddr := none
        amount := none, reason := none
        account := acct, whitelistStatus := none } with
    | .ok db2 => db2
    | .error _ => db

/-- `contract.queryFilter(filter, fromBlock, toBlock)` for an event kind:
the chain's events of that kind whose block number lies in the inclusive
range, in chain order. -/
def eventsInRange (chain : List ChainEvent) (kind : String)
    (fromBlock toBlock : Nat) : List ChainEvent :=
  chain.filter (fun e =>
    e.payload.kindName == kind &&
    decide (fromBlock ≤ e.blockNumber) && decide (e.blockNumber ≤ toBlock))

/-- `queryEvents(fromBlock, toBlock)`: queries and processes, in this
order, all Transfer, TokensMinted, TokensBurned, WhitelistUpdated, Paused
and Unpaused events of the window.  Its own `try`/`catch` swallows errors,
and every per-event handler swallows its own, so it always returns a
store. -/
def queryEvents (chain : List ChainEvent) (fromBlock toBlock : Nat)
    (db : Db) : Db :=
  let db1 := (eventsInRange chain "Transfer" fromBlock toBlock).foldl
    processTransferEvent db
  let db2 := (eventsInRange chain "TokensMinted" fromBlock toBlock).foldl
    processMintEvent db1
  let db3 := (eventsInRange chain "TokensBurned" fromBlock toBlock).foldl
    processBurnEvent db2
  let db4 := (eventsInRange chain "WhitelistUpdated" fromBlock toBlock).foldl
    processWhitelistEvent db3
  let db5 := (eventsInRange chain "Paused" fromBlock toBlock).foldl
    (fun d e => processPauseEvent d e true) db4
  (eventsInRange chain "Unpaused" fromBlock toBlock).foldl
    (fun d e => processPauseEvent d e false) db5

/-- `POLLING_INTERVAL_MS` of the polling service constructor. -/
def POLLING_INTERVAL_MS : Nat := 15000

/-- `BLOCKS_PER_QUERY` of the polling service constructor. -/
def BLOCKS_PER_QUERY : Nat := 100

/-- The in-memory state of the polling service: the cursor
(`lastProcessedBlock`), the mirror store, the `isRunning` flag and whether
the `setInterval` timer is installed (`pollingInterval !== null`). -/
structure SyncState where
  lastProcessedBlock : Nat
  db : Db
  isRunning : Bool
  pollingActive : Bool
deriving DecidableEq

/-- `pollEvents()`.  `headResult` is the outcome of
`provider.getBlockNumber()` (`none` when the transport call throws, in
which case the surrounding `catch` logs and leaves all state unchanged).
Otherwise: if the head is at or below the cursor, no-op; else process the
window `[cursor+1, min(cursor+1+BLOCKS_PER_QUERY-1, head)]` via
`queryEvents` and set the cursor to the window's upper bound.  Because
`queryEvents` and every handler swallow their own errors, the cursor
assignment is reached whenever the head query succeeds. -/
def pollEvents (chain : List ChainEvent) (headResult : Option Nat)
    (s : SyncState) : SyncState :=
  match headResult with
  | none => s
  | some currentBlock =>
    if currentBlock ≤ s.lastProcessedBlock then s
    else
      let fromBlock := s.lastProcessedBlock + 1
      let toBlock := min (fromBlock + BLOCKS_PER_QUERY - 1) currentBlock
      { s with
        db := queryEvents chain fromBlock toBlock s.db
        lastProcessedBlock := toBlock }

/-- One firing of the `setInterval` timer: runs `pollEvents` while the
timer is installed, and does nothing once it has been cleared. -/
def stepTick (chain : List ChainEvent) (headResult : Option Nat)
    (s : SyncState) : SyncState :=
  if s.pollingActive then pollEvents chain headResult s else s

/-- `stopListening()`: clears the interval timer and resets `isRunning`. -/
def stopListening (s : SyncState) : SyncState :=
  { s with pollingActive := false, isRunning := false }

/-- Delay before the next poll after `consecutiveFailures` failed
iterations.  The service schedules polling once, with
`setInterval(..., POLLING_INTERVAL_MS)`, and no code path ever changes or
re-installs the timer on error, so the delay is the constant interval for
every failure count. -/
def pollDelayMs (_consecutiveFailures : Nat) : Nat :=
  POLLING_INTERVAL_MS

/-! ## Signature verification (backend/src/config/blockchain.js) -/

/-- `verifySignature(message, signature, expectedAddress)`.  The external
`ethers.verifyMessage` is abstracted as `recover`, returning `none` when
it would throw on a malformed or unrecoverable signature; the `catch`
branch returns `false`, otherwise the recovered address is compared
case-insensitively with the expected one. -/
def verifySignature (recover : String → String → Option String)
    (message signature expectedAddress : String) : Bool :=
  match recover message signature with
  | some recoveredAddress => recoveredAddress.toLower == expectedAddress.toLower
  | none => false

/-! ## Spec-modelled balance projection

The specification's Projection Store (section 4.3) maintains per-account
balances and a running total supply.  No code under src/ implements that
accounting (the Mongo models store only history records and a whitelist
flag), so to state claims that mention balances we model the spec's
accounting separately. -/

/-- Modelled from the spec: the per-account balance delta of one event
under section 4.3's rules — Transfer(from,to,v) decrements `from` by `v`
and increments `to` by `v`, Mint(to,v) increments `to`, Burn(from,v)
decrements `from`; other events carry no balance effect. -/
def specBalanceDelta (a : String) (p : EvPayload) : Int :=
  match p with
  | .transferP srcAddr destAddr v =>
      (if a = destAddr then (v : Int) else 0) - (if a = srcAddr then (v : Int) else 0)
  | .mintP destAddr v _ => if a = destAddr then (v : Int) else 0
  | .burnP srcAddr v _ => if a = srcAddr then -(v : Int) else 0
  | _ => 0

/-- Modelled from the spec: the balance of `a` after applying a sequence of
events to the spec's Projection Store, all accounts starting at zero. -/
def specBalance (events : List EvPayload) (a : String) : Int :=
  events.foldl (fun b p => b + specBalanceDelta a p) 0

/-! ## Concrete fixtures used by witnesses and counterexamples -/

/-- A freshly deployed token, deployer `0xaleph`. -/
def stDeploy : TokenState :=
  RWAToken.deploy "0xaleph" "Gold Token" "GLDT" "GOLD" "oz" 1000
    "Vault A, London" "QmHash123" 1700000000

/-- The deployed token after the deployer pauses it. -/
def stPaused : TokenState :=
  match RWAToken.pause stDeploy "0xaleph" with
  | .ok st => st
  | .error _ => stDeploy

/-- An empty mirror store. -/
def dbEmpty : Db := { transactions := [], users := [] }

/-- The two events one successful `mint` transaction emits: the ERC20
`Transfer` from the zero address and the `TokensMinted` event, sharing one
transaction hash and block. -/
def chainMintTx : List ChainEvent :=
  [ { txHash := "0xh1", blockNumber := 5,
      payload := .transferP zeroAddress "0xAAA" 100 },
    { txHash := "0xh1", blockNumber := 5,
      payload := .mintP "0xAAA" 100 "issuance" } ]

/-- Sync state at cursor 0 with the timer installed. -/
def sRun0 : SyncState :=
  { lastProcessedBlock := 0, db := dbEmpty, isRunning := true,
    pollingActive := true }

/-- A store already holding two whitelisted users and no history. -/
def dbUsers : Db :=
  { transactions := [],
    users := [ { walletAddress := "0xaaa", isWhitelisted := true },
               { walletAddress := "0xbbb", isWhitelisted := true } ] }

/-- A transfer event whose application would, under the spec's accounting,
drive the sender's balance to -40. -/
def evNeg : ChainEvent :=
  { txHash := "0xh5", blockNumber := 7, payload := .transferP "0xAAA" "0xBBB" 40 }

/-- A window holding the spec-negative transfer of `evNeg` at block 7 and a
later unrelated mint at block 9. -/
def chainNeg : List ChainEvent :=
  [ evNeg,
    { txHash := "0xh6", blockNumber := 9, payload := .mintP "0xCCC" 10 "later" } ]

/-- The result of the batch-whitelist fixture call below: only `0xbob` is
added once; the zero address and duplicates are skipped. -/
def resBatch : TokenState :=
  { stDeploy with
    whitelist := stDeploy.whitelist ++ ["0xbob"]
    eventLog := stDeploy.eventLog ++ [.WhitelistUpdatedE "0xbob" true] }

/-- A recovery primitive that always throws (returns `none`), standing for
`ethers.verifyMessage` on a malformed signature. -/
def recoverNone : String → String → Option String := fun _ _ => none

/-! ## Helper lemmas -/

lemma pollEvents_isRunning (chain : List ChainEvent) (hr : Option Nat)
    (s : SyncState) : (pollEvents chain hr s).isRunning = s.isRunning := by
  unfold pollEvents
  cases hr with
  | none => rfl
  | some cb => dsimp only; split <;> rfl

lemma pollEvents_pollingActive (chain : List ChainEvent) (hr : Option Nat)
    (s : SyncState) : (pollEvents chain hr s).pollingActive = s.pollingActive := by
  unfold pollEvents
  cases hr with
  | none => rfl
  | some cb => dsimp only; split <;> rfl

lemma pollEvents_cursor_le (chain : List ChainEvent) (hr : Option Nat)
    (s : SyncState) :
    s.lastProcessedBlock ≤ (pollEvents chain hr s).lastProcessedBlock := by
  unfold pollEvents
  cases hr with
  | none => exact le_refl _
  | some cb =>
    dsimp only
    split
    · exact le_refl _
    · dsimp only
      next hgt => omega

lemma pollEvents_cursor_eq (chain : List ChainEvent) (head : Nat)
    (s : SyncState) (h : s.lastProcessedBlock < head) :
    (pollEvents chain (some head) s).lastProcessedBlock =
      min (s.lastProcessedBlock + BLOCKS_PER_QUERY) head := by
  unfold pollEvents
  dsimp only
  rw [if_neg (by omega)]
  dsimp only
  omega

lemma processTransferEvent_shape (db : Db) (e : ChainEvent) :
    (processTransferEvent db e).users = db.users ∧
    ((processTransferEvent db e).transactions = db.transactions ∨
      ∃ srcAddr destAddr v, e.payload = .transferP srcAddr destAddr v ∧
        (processTransferEvent db e).transactions = db.transactions ++
          [{ txHash := e.txHash, blockNumber := e.blockNumber
             eventType := "Transfer"
             fromAddr := some (lowercase srcAddr)
             toAddr := some (lowercase destAddr)
             amount := some (toString v), reason := none
             account := none, whitelistStatus := none }]) := by
  unfold processTransferEvent
  cases hp : e.payload
  case transferP srcAddr destAddr v =>
    cases hf : findOneTx db e.txHash "Transfer"
    case some r => exact ⟨rfl, Or.inl rfl⟩
    case none =>
      unfold createTx
      dsimp only
      by_cases hdup : (db.transactions.any fun q => q.txHash == e.txHash) = true
      · rw [if_pos hdup]
        exact ⟨rfl, Or.inl rfl⟩
      · rw [if_neg hdup]
        exact ⟨rfl, Or.inr ⟨srcAddr, destAddr, v, rfl, rfl⟩⟩
  all_goals exact ⟨rfl, Or.inl rfl⟩

lemma batchFold_mem (accounts : List String) (st : TokenState) (a : String) :
    a ∈ (accounts.foldl batchStep st).whitelist ↔
      (a ∈ st.whitelist ∨ (a ∈ accounts ∧ a ≠ zeroAddress)) := by
  induction accounts generalizing st with
  | nil => simp
  | cons x xs ih =>
    rw [List.foldl_cons, ih]
    unfold batchStep
    by_cases hxz : x = zeroAddress
    · have hcond : (x != zeroAddress && !(st.whitelist.contains x)) = false := by
        simp [hxz]
      rw [hcond]
      have haz : a = x → a = zeroAddress := fun h => h.trans hxz
      simp only [Bool.false_eq_true, if_false, List.mem_cons]
      tauto
    · by_cases hxw : x ∈ st.whitelist
      · have hcond : (x != zeroAddress && !(st.whitelist.contains x)) = false := by
          simp only [Bool.and_eq_false_iff]
          right
          simp [List.elem_eq_true_of_mem hxw]
          exact hxw
        rw [hcond]
        have haw : a = x → a ∈ st.whitelist := fun h => h ▸ hxw
        simp only [Bool.false_eq_true, if_false, List.mem_cons]
        tauto
      · have hcond : (x != zeroAddress && !(st.whitelist.contains x)) = true := by
          have : st.whitelist.contains x = false := by
            cases hc : st.whitelist.contains x
            · rfl
            · exact absurd (List.elem_iff.mp hc) hxw
          simp [hxz, this]
          exact hxw
        rw [hcond]
        have hBD : a = x → a ≠ zeroAddress := fun h => h ▸ hxz
        simp only [if_true, List.mem_append, List.mem_singleton, List.mem_cons]
        tauto

/-! ## Claim theorems -/

/-- C1 (amended): across every poll iteration the cursor is monotonically
non-decreasing, and whenever the head query succeeds with head > cursor it
advances to the window's upper bound `min(cursor + 100, head)`
unconditionally — in particular regardless of whether the window's events
were durably recorded, since all recording errors are swallowed inside
`queryEvents` and the per-event handlers. -/
theorem cursor_monotone_and_always_advances (chain : List ChainEvent)
    (s : SyncState) :
    (∀ hr, s.lastProcessedBlock ≤ (pollEvents chain hr s).lastProcessedBlock) ∧
    (∀ head, s.lastProcessedBlock < head →
      (pollEvents chain (some head) s).lastProcessedBlock =
        min (s.lastProcessedBlock + BLOCKS_PER_QUERY) head) :=
  ⟨fun hr => pollEvents_cursor_le chain hr s,
   fun head h => pollEvents_cursor_eq chain head s h⟩

/-- Witness for C1: at cursor 0 and head 5 the cursor advances to
`min (0 + 100) 5 = 5`. -/
theorem cursor_advance_witness :
    sRun0.lastProcessedBlock < 5 ∧
    (pollEvents chainMintTx (some 5) sRun0).lastProcessedBlock =
      min (sRun0.lastProcessedBlock + BLOCKS_PER_QUERY) 5 :=
  ⟨by decide,
   (cursor_monotone_and_always_advances chainMintTx sRun0).2 5 (by decide)⟩

/-- C1 counterexample: the window [1,5] contains the Transfer and the
TokensMinted event of one mint transaction (same hash `0xh1`, block 5).
Recording the TokensMinted event fails — its insert violates the unique
`txHash` index, the error is caught and logged — so the window is not
fully durably recorded, yet the cursor still advances to the window's
upper bound 5.  This refutes the claim that the cursor advances only after
every event in the window has been durably recorded. -/
theorem cursor_advances_past_lost_event :
    (chainMintTx.map fun e => (e.txHash, e.blockNumber, e.payload.kindName)) =
      [("0xh1", 5, "Transfer"), ("0xh1", 5, "TokensMinted")] ∧
    ((pollEvents chainMintTx (some 5) sRun0).db.transactions.map
      fun r => r.eventType) = ["Transfer"] ∧
    (pollEvents chainMintTx (some 5) sRun0).lastProcessedBlock = 5 :=
  ⟨by decide, by decide, by decide⟩

/-- C2: the code evaluated at the failing input.  One transaction (hash
`0xh1`) emits two events of different kinds; the service's dedup checks key
on (txHash, eventType) and so let both proceed to insertion, but the
`Transaction` schema's `unique: true` index on `txHash` alone makes the
second insert fail, so only the first-processed record survives — the
claim (and the service's own dedup keying) say both should be recorded as
distinct records. -/
theorem sameHash_differentKind_second_record_lost :
    (chainMintTx.map fun e => (e.txHash, e.payload.kindName)) =
      [("0xh1", "Transfer"), ("0xh1", "TokensMinted")] ∧
    ((queryEvents chainMintTx 1 10 dbEmpty).transactions.map
      fun r => (r.txHash, r.eventType)) = [("0xh1", "Transfer")] :=
  ⟨by decide, by decide⟩

/-- C3 (amended): applying a Transfer event to the store either leaves it
unchanged (dedup hit or failed insert) or appends exactly one history
record carrying the lowercased addresses and the stringified amount; the
account documents (`users`) are never touched.  The store has no
per-account balance field and no total-supply counter, so no stored
balance is ever decremented or incremented. -/
theorem transfer_appends_history_only (db : Db) (e : ChainEvent)
    (srcAddr destAddr : String) (v : Nat)
    (hp : e.payload = .transferP srcAddr destAddr v) :
    (processTransferEvent db e).users = db.users ∧
    ((processTransferEvent db e).transactions = db.transactions ∨
      (processTransferEvent db e).transactions = db.transactions ++
        [{ txHash := e.txHash, blockNumber := e.blockNumber
           eventType := "Transfer"
           fromAddr := some (lowercase srcAddr)
           toAddr := some (lowercase destAddr)
           amount := some (toString v), reason := none
           account := none, whitelistStatus := none }]) := by
  obtain ⟨hu, hd⟩ := processTransferEvent_shape db e
  refine ⟨hu, ?_⟩
  rcases hd with h | ⟨s1, d1, v1, hp1, h⟩
  · exact Or.inl h
  · rw [hp] at hp1
    simp only [EvPayload.transferP.injEq] at hp1
    obtain ⟨rfl, rfl, rfl⟩ := hp1
    exact Or.inr h

/-- Witness for C3: applying the concrete transfer `evNeg` to `dbUsers`. -/
theorem transfer_appends_history_witness :
    evNeg.payload = .transferP "0xAAA" "0xBBB" 40 ∧
    ((processTransferEvent dbUsers evNeg).users = dbUsers.users ∧
      ((processTransferEvent dbUsers evNeg).transactions =
          dbUsers.transactions ∨
        (processTransferEvent dbUsers evNeg).transactions =
          dbUsers.transactions ++
          [{ txHash := evNeg.txHash, blockNumber := evNeg.blockNumber
             eventType := "Transfer"
             fromAddr := some (lowercase "0xAAA")
             toAddr := some (lowercase "0xBBB")
             amount := some (toString 40), reason := none
             account := none, whitelistStatus := none }])) :=
  ⟨by decide,
   transfer_appends_history_only dbUsers evNeg "0xAAA" "0xBBB" 40 (by decide)⟩

/-- C3 counterexample: applying Transfer(0xAAA → 0xBBB, 40) to a store
whose account documents are two whitelisted users appends one history
record and leaves every account document unchanged.  Neither `UserRec`
nor `TxRecord` nor `Db` carries a balance or total-supply field, so the
claimed decrement of the sender's stored balance by 40 (and the invariant
`sum(balances) = totalSupply` over stored balances) has no counterpart in
the code: no stored per-account quantity changes at all. -/
theorem transfer_updates_no_stored_balance :
    (processTransferEvent dbUsers evNeg).users = dbUsers.users ∧
    (processTransferEvent dbUsers evNeg).transactions =
      [{ txHash := "0xh5", blockNumber := 7, eventType := "Transfer"
         fromAddr := some "0xaaa", toAddr := some "0xbbb"
         amount := some "40", reason := none, account := none
         whitelistStatus := none }] :=
  ⟨by decide, by decide⟩

/-- C6 (amended): the ingestion path performs no balance-integrity check
and can never halt: processing a Transfer event is total, never signals
any violation, leaves the account documents unchanged and at most appends
one history record; and a poll iteration never changes the running flags
of the loop, whatever the window contains. -/
theorem ingestion_never_halts (db : Db) (e : ChainEvent)
    (chain : List ChainEvent) (hr : Option Nat) (s : SyncState) :
    ((processTransferEvent db e).users = db.users ∧
      ((processTransferEvent db e).transactions = db.transactions ∨
        ∃ r, (processTransferEvent db e).transactions =
          db.transactions ++ [r])) ∧
    (pollEvents chain hr s).isRunning = s.isRunning ∧
    (pollEvents chain hr s).pollingActive = s.pollingActive := by
  obtain ⟨hu, hd⟩ := processTransferEvent_shape db e
  refine ⟨⟨hu, ?_⟩, pollEvents_isRunning chain hr s,
    pollEvents_pollingActive chain hr s⟩
  rcases hd with h | ⟨s1, d1, v1, hmm, h⟩
  · exact Or.inl h
  · exact Or.inr ⟨_, h⟩

/-- C6 counterexample: under the spec's accounting the transfer `evNeg`
would drive the sender's balance to -40 (< 0), yet ingesting the window
records it as ordinary history, goes on to process the later event of the
same window, advances the cursor to the window's upper bound and leaves
the loop running — there is no IntegrityViolation and no halt, refuting
the claim that such an event halts ingestion and is surfaced. -/
theorem negative_event_ingested_loop_continues :
    specBalance [evNeg.payload] "0xAAA" < 0 ∧
    ((pollEvents chainNeg (some 9) sRun0).db.transactions.map
      fun r => (r.txHash, r.eventType)) =
      [("0xh5", "Transfer"), ("0xh6", "Mint")] ∧
    (pollEvents chainNeg (some 9) sRun0).lastProcessedBlock = 9 ∧
    (pollEvents chainNeg (some 9) sRun0).isRunning = true :=
  ⟨by decide, by decide, by decide, by decide⟩

/-- C7 (amended): a timer tick — including one whose transport call fails —
never changes the loop's running flags, so transport errors are never
fatal; the delay between polls is the fixed `POLLING_INTERVAL_MS` for
every count of consecutive failures (there is no backoff); and only
`stopListening` terminates the loop, after which ticks are no-ops. -/
theorem errors_never_fatal_fixed_delay (chain : List ChainEvent)
    (hr : Option Nat) (s : SyncState) (n : Nat) :
    (stepTick chain hr s).isRunning = s.isRunning ∧
    (stepTick chain hr s).pollingActive = s.pollingActive ∧
    pollDelayMs n = POLLING_INTERVAL_MS ∧
    (stopListening s).pollingActive = false ∧
    (stopListening s).isRunning = false ∧
    stepTick chain hr (stopListening s) = stopListening s := by
  refine ⟨?_, ?_, rfl, rfl, rfl, ?_⟩
  · unfold stepTick
    split
    · exact pollEvents_isRunning chain hr s
    · rfl
  · unfold stepTick
    split
    · exact pollEvents_pollingActive chain hr s
    · rfl
  · simp [stepTick, stopListening]

/-- C7 counterexample: the delay before the next poll does not increase
across consecutive failures — it is the constant 15000 ms after one and
after two consecutive failures alike, refuting the claimed
increasing-backoff behaviour. -/
theorem poll_delay_does_not_increase :
    pollDelayMs 1 = 15000 ∧ pollDelayMs 2 = 15000 ∧
    ¬ pollDelayMs 1 < pollDelayMs 2 :=
  ⟨rfl, rfl, by decide⟩

/-- C8 (confirmed): each iteration queries the head; if head ≤ cursor the
iteration leaves the whole state unchanged; otherwise it processes exactly
the window `[cursor + 1, min(cursor + W, head)]` with
`W = BLOCKS_PER_QUERY = 100` and sets the cursor to the window's upper
bound. -/
theorem pollEvents_window_computation (chain : List ChainEvent)
    (s : SyncState) (head : Nat) :
    BLOCKS_PER_QUERY = 100 ∧
    (head ≤ s.lastProcessedBlock → pollEvents chain (some head) s = s) ∧
    (s.lastProcessedBlock < head →
      pollEvents chain (some head) s =
        { s with
          db := queryEvents chain (s.lastProcessedBlock + 1)
            (min (s.lastProcessedBlock + BLOCKS_PER_QUERY) head) s.db
          lastProcessedBlock :=
            min (s.lastProcessedBlock + BLOCKS_PER_QUERY) head }) := by
  refine ⟨rfl, ?_, ?_⟩
  · intro h
    unfold pollEvents
    dsimp only
    rw [if_pos h]
  · intro h
    unfold pollEvents
    dsimp only
    rw [if_neg (by omega)]
    have harith : s.lastProcessedBlock + 1 + BLOCKS_PER_QUERY - 1 =
        s.lastProcessedBlock + BLOCKS_PER_QUERY := by
      omega
    rw [harith]

/-- Witness for C8: at cursor 0 and head 7 the processed window is
`[1, min (0 + 100) 7] = [1, 7]` and the cursor lands on 7. -/
theorem pollEvents_window_computation_witness :
    sRun0.lastProcessedBlock < 7 ∧
    pollEvents chainNeg (some 7) sRun0 =
      { sRun0 with
        db := queryEvents chainNeg (sRun0.lastProcessedBlock + 1)
          (min (sRun0.lastProcessedBlock + BLOCKS_PER_QUERY) 7) sRun0.db
        lastProcessedBlock :=
          min (sRun0.lastProcessedBlock + BLOCKS_PER_QUERY) 7 } :=
  ⟨by decide, (pollEvents_window_computation chainNeg sRun0 7).2.2 (by decide)⟩

/-- C4 (amended): `mint` succeeds exactly when the caller holds
`ISSUER_ROLE`, the ledger is not paused, the recipient is whitelisted and
the amount is positive; when several preconditions fail the reported error
is the first failing check in the order Unauthorized (role modifier),
Paused (pause modifier), NotWhitelisted, InvalidAmount — the two modifiers
run before the body's `require`s, so Paused is checked before the
whitelist, not after InvalidAmount. -/
theorem mint_result_characterization (st : TokenState)
    (caller toAcct : String) (amount : Nat) (reason : String) :
    ((RWAToken.mint st caller toAcct amount reason).isOk = true ↔
      (hasRole st ISSUER_ROLE caller = true ∧ st.paused = false ∧
       st.whitelist.contains toAcct = true ∧ 0 < amount)) ∧
    (RWAToken.mint st caller toAcct amount reason = .error .Unauthorized ↔
      hasRole st ISSUER_ROLE caller = false) ∧
    (RWAToken.mint st caller toAcct amount reason = .error .EnforcedPause ↔
      (hasRole st ISSUER_ROLE caller = true ∧ st.paused = true)) ∧
    (RWAToken.mint st caller toAcct amount reason =
        .error .NotWhitelistedRecipient ↔
      (hasRole st ISSUER_ROLE caller = true ∧ st.paused = false ∧
       st.whitelist.contains toAcct = false)) ∧
    (RWAToken.mint st caller toAcct amount reason = .error .InvalidAmount ↔
      (hasRole st ISSUER_ROLE caller = true ∧ st.paused = false ∧
       st.whitelist.contains toAcct = true ∧ amount = 0)) := by
  unfold RWAToken.mint
  cases hR : hasRole st ISSUER_ROLE caller <;>
    cases hP : st.paused <;>
      cases hW : st.whitelist.contains toAcct <;>
        rcases Nat.eq_zero_or_pos amount with hA | hA <;>
          simp_all [Except.isOk, Except.toBool, Nat.pos_iff_ne_zero]

/-- C4 counterexample: an issuer minting to a non-whitelisted recipient
while the ledger is paused fails with the pause error, not with
NotWhitelisted as the claimed check order predicts. -/
theorem mint_paused_wins_over_whitelist :
    hasRole stPaused ISSUER_ROLE "0xaleph" = true ∧
    stPaused.paused = true ∧
    stPaused.whitelist.contains "0xbob" = false ∧
    RWAToken.mint stPaused "0xaleph" "0xbob" 5 "r" = .error .EnforcedPause ∧
    RWAToken.mint stPaused "0xaleph" "0xbob" 5 "r" ≠
      .error .NotWhitelistedRecipient :=
  ⟨by decide, by decide, by decide, by decide, by decide⟩

/-- C5 (amended): for an ADMIN caller the single-address whitelist
operations are not idempotent no-ops — adding an already-whitelisted
(nonzero) target fails with the already-whitelisted error and removing a
non-whitelisted target fails with the not-whitelisted error — while the
batch add form always succeeds for an admin and silently skips duplicate
and zero-address entries: the resulting whitelist is the old one plus
exactly the nonzero entries of the batch. -/
theorem whitelist_single_rejects_batch_skips (st : TokenState)
    (caller account : String) (accounts : List String) :
    (RWAToken.addToWhitelist st caller account = .error .AlreadyWhitelisted ↔
      (hasRole st ADMIN_ROLE caller = true ∧ (account == zeroAddress) = false ∧
       st.whitelist.contains account = true)) ∧
    (RWAToken.removeFromWhitelist st caller account =
        .error .NotWhitelistedTarget ↔
      (hasRole st ADMIN_ROLE caller = true ∧
       st.whitelist.contains account = false)) ∧
    ((RWAToken.batchAddToWhitelist st caller accounts).isOk = true ↔
      hasRole st ADMIN_ROLE caller = true) ∧
    (∀ res, RWAToken.batchAddToWhitelist st caller accounts = .ok res →
      ∀ a, a ∈ res.whitelist ↔
        (a ∈ st.whitelist ∨ (a ∈ accounts ∧ a ≠ zeroAddress))) := by
  refine ⟨?_, ?_, ?_, ?_⟩
  · unfold RWAToken.addToWhitelist
    cases hR : hasRole st ADMIN_ROLE caller <;>
      cases hz : account == zeroAddress <;>
        cases hW : st.whitelist.contains account <;> simp_all
  · unfold RWAToken.removeFromWhitelist
    cases hR : hasRole st ADMIN_ROLE caller <;>
      cases hW : st.whitelist.contains account <;> simp_all
  · unfold RWAToken.batchAddToWhitelist
    cases hR : hasRole st ADMIN_ROLE caller <;>
      simp_all [Except.isOk, Except.toBool]
  · intro res hres a
    unfold RWAToken.batchAddToWhitelist at hres
    cases hR : hasRole st ADMIN_ROLE caller
    · rw [hR] at hres
      simp at hres
    · rw [hR] at hres
      simp only [Bool.not_true, Bool.false_eq_true, if_false,
        Except.ok.injEq] at hres
      rw [← hres]
      exact batchFold_mem accounts st a

/-- Witness for C5: a concrete batch containing the zero address, a
duplicate entry and an already-whitelisted entry succeeds for the admin
deployer, and the membership characterization applies to `0xbob`. -/
theorem whitelist_batch_witness :
    RWAToken.batchAddToWhitelist stDeploy "0xaleph"
      [zeroAddress, "0xbob", "0xbob", "0xaleph"] = .ok resBatch ∧
    ("0xbob" ∈ resBatch.whitelist ↔
      ("0xbob" ∈ stDeploy.whitelist ∨
        ("0xbob" ∈ [zeroAddress, "0xbob", "0xbob", "0xaleph"] ∧
         "0xbob" ≠ zeroAddress))) :=
  ⟨by decide,
   (whitelist_single_rejects_batch_skips stDeploy "0xaleph" "0xbob"
      [zeroAddress, "0xbob", "0xbob", "0xaleph"]).2.2.2 resBatch
      (by decide) "0xbob"⟩

/-- C5 counterexample: the admin deployer re-adding the already-whitelisted
deployer address reverts with the already-whitelisted error, and removing
a never-whitelisted address reverts with the not-whitelisted error —
neither is a no-op success, refuting the claimed idempotence of the
single-address forms. -/
theorem single_add_remove_not_idempotent :
    hasRole stDeploy ADMIN_ROLE "0xaleph" = true ∧
    stDeploy.whitelist.contains "0xaleph" = true ∧
    RWAToken.addToWhitelist stDeploy "0xaleph" "0xaleph" =
      .error .AlreadyWhitelisted ∧
    stDeploy.whitelist.contains "0xbob" = false ∧
    RWAToken.removeFromWhitelist stDeploy "0xaleph" "0xbob" =
      .error .NotWhitelistedTarget :=
  ⟨by decide, by decide, by decide, by decide, by decide⟩

/-- C9 (confirmed): the constructor grants the deployer all three roles,
whitelists the deployer (emitting `WhitelistUpdated(deployer, true)`),
emits the initial `AssetMetadataUpdated` event, leaves the whitelist
non-empty, and the deployer can immediately mint (to itself, amount 1) on
the freshly deployed state. -/
theorem deploy_grants_roles_whitelists_and_can_mint
    (deployer name symbol commodityType unit : String) (totalQuantity : Nat)
    (storageLocation certificationHash : String) (timestamp : Nat)
    (reason : String) :
    (let st := RWAToken.deploy deployer name symbol commodityType unit
      totalQuantity storageLocation certificationHash timestamp
    hasRole st DEFAULT_ADMIN_ROLE deployer = true ∧
    hasRole st ADMIN_ROLE deployer = true ∧
    hasRole st ISSUER_ROLE deployer = true ∧
    st.whitelist ≠ [] ∧
    deployer ∈ st.whitelist ∧
    ContractEvent.WhitelistUpdatedE deployer true ∈ st.eventLog ∧
    ContractEvent.AssetMetadataUpdatedE commodityType unit totalQuantity
      storageLocation certificationHash ∈ st.eventLog ∧
    (RWAToken.mint st deployer deployer 1 reason).isOk = true) := by
  dsimp only
  refine ⟨?_, ?_, ?_, ?_, ?_, ?_, ?_, ?_⟩
  · exact List.elem_eq_true_of_mem (by simp [RWAToken.deploy])
  · exact List.elem_eq_true_of_mem (by simp [RWAToken.deploy])
  · exact List.elem_eq_true_of_mem (by simp [RWAToken.deploy])
  · simp [RWAToken.deploy]
  · simp [RWAToken.deploy]
  · simp [RWAToken.deploy]
  · simp [RWAToken.deploy]
  · have hIss : hasRole (RWAToken.deploy deployer name symbol commodityType
        unit totalQuantity storageLocation certificationHash timestamp)
        ISSUER_ROLE deployer = true :=
      List.elem_eq_true_of_mem (by simp [RWAToken.deploy])
    have hWl : (RWAToken.deploy deployer name symbol commodityType unit
        totalQuantity storageLocation certificationHash
        timestamp).whitelist.contains deployer = true :=
      List.elem_eq_true_of_mem (by simp [RWAToken.deploy])
    unfold RWAToken.mint
    rw [hIss, hWl]
    simp [RWAToken.deploy, Except.isOk, Except.toBool]

/-- C10 (confirmed): `verifySignature` is a total Boolean function (the
`try`/`catch` is embedded by the `Option`-valued recovery primitive); it
returns `true` exactly when recovery succeeds and the recovered address
equals the expected one case-insensitively, and returns `false` whenever
the signature is malformed or unrecoverable (recovery throws). -/
theorem verifySignature_total_and_correct
    (recover : String → String → Option String)
    (message signature expectedAddress : String) :
    (verifySignature recover message signature expectedAddress = true ↔
      ∃ a, recover message signature = some a ∧
        a.toLower = expectedAddress.toLower) ∧
    (recover message signature = none →
      verifySignature recover message signature expectedAddress = false) := by
  unfold verifySignature
  cases h : recover message signature with
  | none => simp
  | some a => simp [h]

/-- Witness for C10: a recovery primitive that always throws makes
`verifySignature` return `false`. -/
theorem verifySignature_none_witness :
    recoverNone "m" "sig" = none ∧
    verifySignature recoverNone "m" "sig" "0xE" = false :=
  ⟨rfl, (verifySignature_total_and_correct recoverNone "m" "sig" "0xE").2 rfl⟩
